import Mathlib

/-!
# Verification of the VBScript symbol extractor (`src/server/src/server.ts`)

Shallow embedding of the statement-oriented parser of the VBScript
language server: comment stripping, string-literal masking
(`ReplaceStringLiterals`), statement splitting (`SplitStatements`), the
ordered construct recognizers with their open-construct state
(`GetMethodStart`, `GetMethodSymbol`, `GetPropertyStart`,
`GetPropertySymbol`, `GetClassStart`, `GetClassSymbol`,
`GetMemberSymbol`, `GetVariableSymbol`, `GetConstantSymbol`,
`FindSymbol`, `CollectSymbols`), and the position-indexed scope
structure (`VBSSymbolTree`, `PositionInRange`, `GetSymbolsOfScope`).

Strings are handled through their character lists.  A document is
modelled as its list of physical lines (the TS code obtains it as
`document.getText().split(/\r?\n/g)`).  Console logging
(`console.log`) is an output effect: the stateful operations return
the emitted messages alongside their result, and the parser state
holds exactly the four module-level variables `openClassName`,
`openClassStart`, `openMethod`, `openProperty`.
-/

namespace VBS

/-- The comment marker character `'` (ASCII 39), as used by
`line.indexOf("'")` in `CollectSymbols`. -/
def commentChar : Char := Char.ofNat 39

/-- The string-literal delimiter `"` (ASCII 34). -/
def quoteChar : Char := Char.ofNat 34

/-- Characters accepted by `[ \t]` in the recognizer regexes. -/
def isSpTab (c : Char) : Bool := c = ' ' || c = '\t'

/-- Characters accepted by the identifier class `[a-zA-Z0-9\-\_]`. -/
def isNameChar (c : Char) : Bool :=
  (('a' ≤ c && c ≤ 'z') || ('A' ≤ c && c ≤ 'Z') || ('0' ≤ c && c ≤ '9')
    || c = '-' || c = '_')

/-- Characters accepted by the parameter-list class `[a-zA-Z0-9\_\-, \t]`. -/
def isArgChar (c : Char) : Bool := isNameChar c || c = ',' || isSpTab c

/-- `GetNumberOfFrontSpaces`: number of leading blanks or tabs. -/
def GetNumberOfFrontSpaces (l : List Char) : Nat :=
  (l.takeWhile isSpTab).length

/-- First index at which `pat` occurs in `l`, or `-1`; models
JavaScript `String.prototype.indexOf` (so the empty pattern is found
at index 0). -/
def indexOfFrom (l pat : List Char) (i : Nat) : Int :=
  match l with
  | [] => if pat.isEmpty then (i : Int) else -1
  | _ :: rest =>
      if pat.isPrefixOf l then (i : Int) else indexOfFrom rest pat (i + 1)

/-- JavaScript `l.indexOf(pat)`. -/
def jsIndexOf (l pat : List Char) : Int := indexOfFrom l pat 0

/-- JavaScript `String.prototype.trim` restricted to the blanks and
tabs that can occur here. -/
def jsTrim (l : List Char) : List Char :=
  ((l.dropWhile isSpTab).reverse.dropWhile isSpTab).reverse

/-- Strip the trailing comment: `CollectSymbols` computes
`line.indexOf("'")` on the raw line and truncates there when found —
note that this happens before string literals are masked. -/
def stripComment (l : List Char) : List Char :=
  let containsComment := jsIndexOf l [commentChar]
  if containsComment > -1 then l.take containsComment.toNat else l

/-- Content matcher of the literal regex `\"(([^\"]|\"\")*)\"`: given
the characters after an opening quote, returns how many characters a
greedy match of `([^\"]|\"\")*\"` consumes (content plus the closing
quote), or `none` when no match is possible.  A doubled quote is kept
as content exactly when the remainder can still close — mirroring the
backtracking of the JavaScript engine. -/
def matchLiteralTail : List Char → Option Nat
  | [] => none
  | c :: rest =>
      if c = quoteChar then
        match rest with
        | c2 :: rest2 =>
            if c2 = quoteChar then
              match matchLiteralTail rest2 with
              | some n => some (n + 2)
              | none => some 1
            else some 1
        | [] => some 1
      else (matchLiteralTail rest).map (· + 1)

/-- Fuelled scan of `ReplaceStringLiterals`: the fuel only bounds the
recursion depth (one unit per consumed character suffices, and the
caller supplies the line length), keeping the definition structurally
recursive so that it evaluates inside the kernel. -/
def maskCharsAux : Nat → List Char → List Char
  | _, [] => []
  | 0, l => l
  | fuel + 1, c :: rest =>
      if c = quoteChar then
        match matchLiteralTail rest with
        | some n => List.replicate (n + 1) ' ' ++ maskCharsAux fuel (rest.drop n)
        | none => c :: maskCharsAux fuel rest
      else c :: maskCharsAux fuel rest

/-- `ReplaceStringLiterals` / `ReplaceBySpaces`: every match of
`/\"(([^\"]|\"\")*)\"/g` is replaced by a run of spaces of the same
length.  The regex can only start matching at a quote, so the scan
attempts a literal match at each quote and copies everything else. -/
def maskChars (l : List Char) : List Char := maskCharsAux l.length l

/-- `ReplaceStringLiterals` on a string. -/
def ReplaceStringLiterals (line : String) : String :=
  String.mk (maskChars line.data)

/-- JavaScript `line.split(":")` (single-character separator, empty
segments kept). -/
def splitChar (sep : Char) : List Char → List (List Char)
  | [] => [[]]
  | c :: rest =>
      if c = sep then [] :: splitChar sep rest
      else
        match splitChar sep rest with
        | s :: ss => (c :: s) :: ss
        | [] => [[c]]

/-- The padding loop of `SplitStatements`: each statement is
left-padded with spaces up to its absolute offset on the line
(`offset` advances by the padded length plus one for the consumed
separator). -/
def padStatements (off : Nat) : List (List Char) → List (List Char)
  | [] => []
  | s :: rest =>
      let p := List.replicate off ' ' ++ s
      p :: padStatements (p.length + 1) rest

/-- `SplitStatements`. -/
def SplitStatements (l : List Char) : List (List Char) :=
  padStatements 0 (splitChar ':' l)

/-- Number of statements a raw physical line is divided into by the
`CollectSymbols` per-line pipeline (comment strip, literal masking,
statement split). -/
def numStatements (line : String) : Nat :=
  (SplitStatements (maskChars (stripComment line.data))).length

/-! ## Data model: positions, ranges, symbols, parser state

`ls.Position` carries `line` and `character`; both are modelled as
`Int` because `openClassStart` is initialised to `Position.create(-1, -1)`.
`VBSSymbol` defaults `visibility`, `name`, `type`, `args` and
`parentName` to `""`; `parentName` and `visibility` are `Option String`
because the TS code also stores `null`/`undefined` in them
(`openClassName` may be `null`, an absent visibility group is
`undefined`). -/

structure Pos where
  line : Int
  character : Int
deriving Repr, DecidableEq

/-- `ls.Range`; `stop` models the `end` field. -/
structure LsRange where
  start : Pos
  stop : Pos
deriving Repr, DecidableEq

/-- `ls.Location`. -/
structure Location where
  uri : String
  range : LsRange
deriving Repr, DecidableEq

/-- The concrete `VBSSymbol` subclass a symbol was built with. -/
inductive SymKind where
  | cls | method | prop | member | var | const
deriving Repr, DecidableEq

/-- A `VBSSymbol` record. -/
structure Symbol where
  kind : SymKind
  visibility : Option String := some ""
  name : String := ""
  type : String := ""
  args : String := ""
  symbolRange : LsRange
  nameLocation : Location
  parentName : Option String := some ""
deriving Repr, DecidableEq

/-- `GetLsName` (virtual dispatch over the symbol subclasses):
`VBSMethodSymbol` renders `name (args)`, `VBSPropertySymbol` renders
`type name (args)` (omitting the parentheses for empty `args`), the
base class renders the bare name. -/
def GetLsName (s : Symbol) : String :=
  match s.kind with
  | .method => s.name ++ " (" ++ s.args ++ ")"
  | .prop =>
      if s.args ≠ "" then s.type ++ " " ++ s.name ++ " (" ++ s.args ++ ")"
      else s.type ++ " " ++ s.name
  | _ => s.name

/-- The module-level variable `openMethod`. -/
structure OpenMethod where
  visibility : Option String
  type : String
  name : String
  argsIndex : Int
  args : String
  startPosition : Pos
  nameLocation : Location
deriving Repr, DecidableEq

/-- The module-level variable `openProperty`. -/
structure OpenProperty where
  visibility : Option String
  type : String
  name : String
  argsIndex : Int
  args : String
  startPosition : Pos
  nameLocation : Location
deriving Repr, DecidableEq

/-- The four module-level open-construct variables of `server.ts`.
`console.log` output is returned by each operation instead of being
stored, since the parser never reads it back. -/
structure ParserState where
  openClassName : Option String
  openClassStart : Pos
  openMethod : Option OpenMethod
  openProperty : Option OpenProperty
deriving Repr, DecidableEq

/-- The variables' initial values (`null`, `Position.create(-1, -1)`,
`null`, `null`). -/
def initState : ParserState := ⟨none, ⟨-1, -1⟩, none, none⟩

/-! ## Recognizer pattern matching

Each anchored regex of `server.ts` is translated into a matcher over
the character list, returning the capture groups.  The alternations
involved (`public|private`, `function|sub`, `let|set|get`) have
pairwise non-overlapping prefixes with the material that follows them,
so first-alternative/greedy matching without further backtracking
agrees with the JavaScript engine on every input. -/

/-- Case-insensitive literal (`pat` in lowercase): returns the matched
original characters and the remainder. -/
def litCI (pat : List Char) (l : List Char) : Option (List Char × List Char) :=
  let pre := l.take pat.length
  if pre.map Char.toLower = pat then some (pre, l.drop pat.length) else none

/-- `[ \t]*`: split off the leading blank run. -/
def takeSp (l : List Char) : List Char × List Char :=
  (l.takeWhile isSpTab, l.dropWhile isSpTab)

/-- `[ \t]+`: at least one blank. -/
def takeSp1 (l : List Char) : Option (List Char × List Char) :=
  let s := l.takeWhile isSpTab
  if s.isEmpty then none else some (s, l.dropWhile isSpTab)

/-- `[a-zA-Z0-9\-\_]+`. -/
def nameRun (l : List Char) : Option (List Char × List Char) :=
  let s := l.takeWhile isNameChar
  if s.isEmpty then none else some (s, l.dropWhile isNameChar)

/-- The optional visibility group `(public[ \t]+|private[ \t]+)?`
(captured text includes the trailing blanks).  When the group cannot
match, the position is unchanged; no later backtracking into the group
can succeed because `function`, `sub`, `property` and `const` are not
prefixes of `public`/`private`. -/
def visGroup (l : List Char) : Option (List Char) × List Char :=
  match litCI "public".data l with
  | some (v, r) =>
      match takeSp1 r with
      | some (s, r2) => (some (v ++ s), r2)
      | none => (none, l)
  | none =>
      match litCI "private".data l with
      | some (v, r) =>
          match takeSp1 r with
          | some (s, r2) => (some (v ++ s), r2)
          | none => (none, l)
      | none => (none, l)

/-- Captures of the method-start regex
`/^[ \t]*(public[ \t]+|private[ \t]+)?(function|sub)([ \t]+)([a-zA-Z0-9\-\_]+)([ \t]*)(\(([a-zA-Z0-9\_\-, \t]*)\))?[ \t]*$/gi`. -/
structure MethodStartCaps where
  vis : Option (List Char)
  keyword : List Char
  sep : List Char
  name : List Char
  postSp : List Char
  argsGroup : Option (List Char)
deriving Repr, DecidableEq

/-- Match the method-start regex.  The optional parenthesised group is
taken exactly when a `(` follows: skipping a present `(` would leave it
for the trailing `[ \t]*$`, which then fails. -/
def methodStartMatch (line : String) : Option MethodStartCaps :=
  let (_, r0) := takeSp line.data
  let (vis, r1) := visGroup r0
  match (litCI "function".data r1).orElse (fun _ => litCI "sub".data r1) with
  | none => none
  | some (kw, r2) =>
    match takeSp1 r2 with
    | none => none
    | some (sep, r3) =>
      match nameRun r3 with
      | none => none
      | some (nm, r4) =>
        let (post, r5) := takeSp r4
        match r5 with
        | '(' :: r6 =>
            let args := r6.takeWhile isArgChar
            match r6.dropWhile isArgChar with
            | ')' :: r8 =>
                if (takeSp r8).2.isEmpty then
                  some ⟨vis, kw, sep, nm, post, some args⟩
                else none
            | _ => none
        | _ =>
            if (takeSp r5).2.isEmpty then some ⟨vis, kw, sep, nm, post, none⟩
            else none

/-- Match `/^[ \t]*end[ \t]+(function|sub)[ \t]*$/gi`; returns the
captured keyword in its original spelling. -/
def methodEndMatch (line : String) : Option (List Char) :=
  match litCI "end".data (takeSp line.data).2 with
  | none => none
  | some (_, r1) =>
    match takeSp1 r1 with
    | none => none
    | some (_, r2) =>
      match (litCI "function".data r2).orElse (fun _ => litCI "sub".data r2) with
      | none => none
      | some (ty, r3) => if (takeSp r3).2.isEmpty then some ty else none

/-- Captures of the property-start regex
`/^[ \t]*(public[ \t]+|private[ \t]+)?(property[ \t]+)(let[ \t]+|set[ \t]+|get[ \t]+)([a-zA-Z0-9\-\_]+)([ \t]*)(\(([a-zA-Z0-9\_\-, \t]*)\))?[ \t]*$/gi`. -/
structure PropertyStartCaps where
  vis : Option (List Char)
  propKw : List Char
  accessor : List Char
  name : List Char
  postSp : List Char
  argsGroup : Option (List Char)
deriving Repr, DecidableEq

/-- Match the property-start regex. -/
def propertyStartMatch (line : String) : Option PropertyStartCaps :=
  let (_, r0) := takeSp line.data
  let (vis, r1) := visGroup r0
  match litCI "property".data r1 with
  | none => none
  | some (pk, r2) =>
    match takeSp1 r2 with
    | none => none
    | some (pks, r3) =>
      match ((litCI "let".data r3).orElse (fun _ => litCI "set".data r3)).orElse
          (fun _ => litCI "get".data r3) with
      | none => none
      | some (acc, r4) =>
        match takeSp1 r4 with
        | none => none
        | some (accs, r5) =>
          match nameRun r5 with
          | none => none
          | some (nm, r6) =>
            let (post, r7) := takeSp r6
            match r7 with
            | '(' :: r8 =>
                let args := r8.takeWhile isArgChar
                match r8.dropWhile isArgChar with
                | ')' :: r10 =>
                    if (takeSp r10).2.isEmpty then
                      some ⟨vis, pk ++ pks, acc ++ accs, nm, post, some args⟩
                    else none
                | _ => none
            | _ =>
                if (takeSp r7).2.isEmpty then
                  some ⟨vis, pk ++ pks, acc ++ accs, nm, post, none⟩
                else none

/-- Match `/^[ \t]*end[ \t]+property[ \t]*$/gi`. -/
def propertyEndMatch (line : String) : Bool :=
  match litCI "end".data (takeSp line.data).2 with
  | none => false
  | some (_, r1) =>
    match takeSp1 r1 with
    | none => false
    | some (_, r2) =>
      match litCI "property".data r2 with
      | none => false
      | some (_, r3) => (takeSp r3).2.isEmpty

/-- Match the field regex
`/^[ \t]*(public[ \t]+|private[ \t]+)([a-zA-Z0-9\-\_]+)[ \t]*$/gi`;
here the visibility group is mandatory. -/
def memberMatch (line : String) : Option (List Char × List Char) :=
  let (vis, r1) := visGroup (takeSp line.data).2
  match vis with
  | none => none
  | some v =>
    match nameRun r1 with
    | none => none
    | some (nm, r2) => if (takeSp r2).2.isEmpty then some (v, nm) else none

/-- Match `/^[ \t]*class[ \t]+([a-zA-Z0-9\-\_]+)[ \t]*$/gi`. -/
def classStartMatch (line : String) : Option (List Char) :=
  match litCI "class".data (takeSp line.data).2 with
  | none => none
  | some (_, r1) =>
    match takeSp1 r1 with
    | none => none
    | some (_, r2) =>
      match nameRun r2 with
      | none => none
      | some (nm, r3) => if (takeSp r3).2.isEmpty then some nm else none

/-- Match `/^[ \t]*end[ \t]+class[ \t]*$/gi`. -/
def classEndMatch (line : String) : Bool :=
  match litCI "end".data (takeSp line.data).2 with
  | none => false
  | some (_, r1) =>
    match takeSp1 r1 with
    | none => false
    | some (_, r2) =>
      match litCI "class".data r2 with
      | none => false
      | some (_, r3) => (takeSp r3).2.isEmpty

/-- Match the constant regex
`/^[ \t]*(public[ \t]+|private[ \t]+)?const[ \t]+([a-zA-Z0-9\-\_]+)[ \t]*\=.*$/gi`:
returns the optional visibility and the name. -/
def constantMatch (line : String) : Option (Option (List Char) × List Char) :=
  let (vis, r1) := visGroup (takeSp line.data).2
  match litCI "const".data r1 with
  | none => none
  | some (_, r2) =>
    match takeSp1 r2 with
    | none => none
    | some (_, r3) =>
      match nameRun r3 with
      | none => none
      | some (nm, r4) =>
        match (takeSp r4).2 with
        | '=' :: _ => some (vis, nm)
        | _ => none

/-- Fuelled loop for the starred list group
`(([a-zA-Z0-9\-\_]+[ \t]*\,[ \t]*)*)` of the variable regex: greedily
consume `name blanks , blanks` units; returns the concatenated
consumed text (capture group 2) and the remainder.  Each unit consumes
at least two characters, so fuel equal to the line length suffices;
greedy consumption agrees with the engine because the final
`([a-zA-Z0-9\-\_]+)[ \t]*$` never matches at the start of a consumed
unit (a comma would remain before the end of the line). -/
def varUnitsAux : Nat → List Char → List Char × List Char
  | 0, l => ([], l)
  | fuel + 1, l =>
      match nameRun l with
      | none => ([], l)
      | some (nm, r1) =>
          match (takeSp r1).2 with
          | ',' :: r3 =>
              let rec2 := varUnitsAux fuel (takeSp r3).2
              (nm ++ (takeSp r1).1 ++ [','] ++ (takeSp r3).1 ++ rec2.1, rec2.2)
          | _ => ([], l)

/-- The starred list group of the variable regex. -/
def varUnits (l : List Char) : List Char × List Char :=
  varUnitsAux l.length l

/-- Captures of the variable regex
`/^[ \t]*(dim[ \t]+)(([a-zA-Z0-9\-\_]+[ \t]*\,[ \t]*)*)([a-zA-Z0-9\-\_]+)[ \t]*$/gi`:
group 1 (`dim` and its blanks), group 2 (the comma list) and group 4
(the final name). -/
def variableMatch (line : String) :
    Option (List Char × List Char × List Char) :=
  match litCI "dim".data (takeSp line.data).2 with
  | none => none
  | some (d, r1) =>
    match takeSp1 r1 with
    | none => none
    | some (s, r2) =>
      let (units, r3) := varUnits r2
      match nameRun r3 with
      | none => none
      | some (nm, r4) =>
          if (takeSp r4).2.isEmpty then some (d ++ s, units, nm) else none

/-- Does the `GetNameRange` regex `(name[ \t]*)(\,|$)` match at
position `i` of the line? -/
def matchNameAt (l name : List Char) (i : Nat) : Bool :=
  let r := l.drop i
  if name.isPrefixOf r then
    match (r.drop name.length).dropWhile isSpTab with
    | [] => true
    | c :: _ => c = ','
  else false

/-- Leftmost match position of the `GetNameRange` regex (JavaScript
`exec` tries every start position from the left). -/
def findVarNameIdx (l name : List Char) : Option Nat :=
  (List.range (l.length + 1)).find? (matchNameAt l name)

/-- `GetNameRange` — a failed search would make the TS code throw on
`matches.index`; it cannot happen for names produced by the variable
regex, so the `none` branch returns a degenerate range. -/
def GetNameRange (lineNumber : Int) (line : List Char) (name : List Char) :
    LsRange :=
  let nm := jsTrim name
  match findVarNameIdx line nm with
  | some i => ⟨⟨lineNumber, i⟩, ⟨lineNumber, (i : Int) + nm.length⟩⟩
  | none => ⟨⟨lineNumber, -1⟩, ⟨lineNumber, -1⟩⟩

/-! ## The construct recognizers

Each function mirrors its namesake in `server.ts`.  The result triple
carries the returned value, the updated module state and the
`console.log` messages (written here without the inner quotation marks
of the TS string literals). -/

/-- `GetMethodStart`.  `regexResult.index` is always `0` (the pattern
is anchored), and the `preLength` loop sums the lengths of the present
groups 1–5.  Note `nameLocation` is computed from `regexResult[3]` —
the blank run between the keyword and the name. -/
def GetMethodStart (line : String) (lineNumber : Int) (uri : String)
    (st : ParserState) : Bool × ParserState × List String :=
  match methodStartMatch line with
  | none => (false, st, [])
  | some caps =>
    match st.openMethod with
    | none =>
      let leadingSpaces := GetNumberOfFrontSpaces line.data
      let preLength : Nat := leadingSpaces + (caps.vis.getD []).length +
        caps.keyword.length + caps.sep.length + caps.name.length +
        caps.postSp.length
      let om : OpenMethod := {
        visibility := caps.vis.map String.mk
        type := String.mk caps.keyword
        name := String.mk caps.name
        argsIndex := (preLength : Int) + 1
        args := String.mk (caps.argsGroup.getD [])
        startPosition := ⟨lineNumber, (leadingSpaces : Int)⟩
        nameLocation := ⟨uri, ⟨⟨lineNumber, jsIndexOf line.data caps.sep⟩,
          ⟨lineNumber, jsIndexOf line.data caps.sep + caps.sep.length⟩⟩⟩ }
      (true, { st with openMethod := some om }, [])
    | some _ =>
      (false, st,
        ["ERROR - line " ++ toString lineNumber ++
          ": end function or end sub expected!"])

/-- `ReplaceAll(target, "\t", " ")` — a global single-character
replacement. -/
def replaceTabsBySpaces (l : List Char) : List Char :=
  l.map fun c => if c = '\t' then ' ' else c

/-- `ReplaceAll(target, "  ", " ")` — a single global pass replacing
non-overlapping double blanks from the left (it does not iterate to a
fixed point). -/
def replaceDoubleSpace : List Char → List Char
  | ' ' :: ' ' :: rest => ' ' :: replaceDoubleSpace rest
  | c :: rest => c :: replaceDoubleSpace rest
  | [] => []

/-- The per-parameter body of `GetParameterSymbols`: the running
`argsIndex` advances by the token length plus one for the consumed
comma; `parentName` keeps the `VBSSymbol` default `""`. -/
def parameterSymbols (lineNumber : Int) (uri : String) :
    List (List Char) → Int → List Symbol
  | [], _ => []
  | arg :: rest, idx =>
      let tokens := splitChar ' ' (jsTrim (replaceDoubleSpace (replaceTabsBySpaces arg)))
      let nm : List Char :=
        match tokens with
        | [] => []
        | [t0] => jsTrim t0
        | _ :: t1 :: _ => jsTrim t1
      let ty : List Char :=
        match tokens with
        | [] => []
        | [_] => []
        | t0 :: _ :: _ => jsTrim t0
      let range : LsRange :=
        ⟨⟨lineNumber, idx + jsIndexOf arg nm⟩,
         ⟨lineNumber, idx + jsIndexOf arg nm + nm.length⟩⟩
      { kind := .var, visibility := some "", type := String.mk ty,
        name := String.mk nm, args := "", symbolRange := range,
        nameLocation := ⟨uri, range⟩, parentName := some "" }
      :: parameterSymbols lineNumber uri rest (idx + arg.length + 1)

/-- `GetParameterSymbols`. -/
def GetParameterSymbols (args : String) (argsIndex : Int) (lineNumber : Int)
    (uri : String) : List Symbol :=
  if args = "" then []
  else parameterSymbols lineNumber uri (splitChar ',' args.data) argsIndex

/-- `GetMethodSymbol`.  The close pattern is anchored at both ends, so
`regexResult[0]` is the whole line; a keyword-kind mismatch is only
logged and the method closes with the data recorded at its opening. -/
def GetMethodSymbol (line : String) (lineNumber : Int) (uri : String)
    (st : ParserState) : Option (List Symbol) × ParserState × List String :=
  match methodEndMatch line with
  | none => (none, st, [])
  | some ty =>
    match st.openMethod with
    | none =>
      (none, st,
        ["ERROR - line " ++ toString lineNumber ++ ": There is no " ++
          String.mk ty ++ " to end!"])
    | some m =>
      let mismatchLog : List String :=
        if String.mk ty = m.type then []
        else ["ERROR - line " ++ toString lineNumber ++ ": end " ++ m.type ++
          " expected!"]
      let range : LsRange := ⟨m.startPosition,
        ⟨lineNumber, (GetNumberOfFrontSpaces line.data : Int) +
          (jsTrim line.data).length⟩⟩
      let symbol : Symbol :=
        { kind := .method, visibility := m.visibility,
          type := m.type, name := m.name, args := m.args,
          nameLocation := m.nameLocation, parentName := st.openClassName,
          symbolRange := range }
      let parametersSymbol :=
        GetParameterSymbols m.args m.argsIndex range.start.line uri
      (some (parametersSymbol ++ [symbol]), { st with openMethod := none },
        mismatchLog)

/-- `GetPropertyStart`.  As in `GetMethodStart`, `preLength` sums
groups 1–5; `nameLocation` here uses `regexResult[4]`, the name. -/
def GetPropertyStart (line : String) (lineNumber : Int) (uri : String)
    (st : ParserState) : Bool × ParserState × List String :=
  match propertyStartMatch line with
  | none => (false, st, [])
  | some caps =>
    match st.openProperty with
    | none =>
      let leadingSpaces := GetNumberOfFrontSpaces line.data
      let preLength : Nat := leadingSpaces + (caps.vis.getD []).length +
        caps.propKw.length + caps.accessor.length + caps.name.length +
        caps.postSp.length
      let op : OpenProperty := {
        visibility := caps.vis.map String.mk
        type := String.mk caps.accessor
        name := String.mk caps.name
        argsIndex := (preLength : Int) + 1
        args := String.mk (caps.argsGroup.getD [])
        startPosition := ⟨lineNumber, (leadingSpaces : Int)⟩
        nameLocation := ⟨uri, ⟨⟨lineNumber, jsIndexOf line.data caps.name⟩,
          ⟨lineNumber, jsIndexOf line.data caps.name + caps.name.length⟩⟩⟩ }
      (true, { st with openProperty := some op }, [])
    | some _ =>
      (false, st,
        ["ERROR - line " ++ toString lineNumber ++
          ": end function or end sub expected!"])

/-- `GetPropertySymbol`. -/
def GetPropertySymbol (statement : String) (lineNumber : Int) (uri : String)
    (st : ParserState) : Option (List Symbol) × ParserState × List String :=
  if propertyEndMatch statement then
    match st.openProperty with
    | none =>
      (none, st,
        ["ERROR - line " ++ toString lineNumber ++
          ": There is no property to end!"])
    | some p =>
      let range : LsRange := ⟨p.startPosition,
        ⟨lineNumber, (GetNumberOfFrontSpaces statement.data : Int) +
          (jsTrim statement.data).length⟩⟩
      let symbol : Symbol :=
        { kind := .prop, visibility := some "",
          type := p.type, name := p.name, args := p.args,
          symbolRange := range, nameLocation := p.nameLocation,
          parentName := st.openClassName }
      let parametersSymbol :=
        GetParameterSymbols p.args p.argsIndex range.start.line uri
      (some (parametersSymbol ++ [symbol]), { st with openProperty := none },
        [])
  else (none, st, [])

/-- `GetMemberSymbol`.  `nameStartIndex` is `line.indexOf(line)`,
which is always `0`. -/
def GetMemberSymbol (line : String) (lineNumber : Int) (uri : String)
    (st : ParserState) : Option Symbol :=
  match memberMatch line with
  | none => none
  | some (vis, nm) =>
    let intendention := GetNumberOfFrontSpaces line.data
    let nameStartIndex := jsIndexOf line.data line.data
    let range : LsRange := ⟨⟨lineNumber, (intendention : Int)⟩,
      ⟨lineNumber, (intendention : Int) + (jsTrim line.data).length⟩⟩
    some
      { kind := .member, visibility := some (String.mk vis), type := "",
        name := String.mk nm, args := "", symbolRange := range,
        nameLocation := ⟨uri, ⟨⟨lineNumber, nameStartIndex⟩,
          ⟨lineNumber, nameStartIndex + nm.length⟩⟩⟩,
        parentName := st.openClassName }

/-- `GetVariableNamesFromList`. -/
def GetVariableNamesFromList (vars : List Char) : List (List Char) :=
  (splitChar ',' vars).map jsTrim

/-- The loop body of `GetVariableSymbol`: only the first variable's
`symbolRange` is widened to the left by `firstElementOffset` (the
length of the `dim` group). -/
def variableSymbolsLoop (lineNumber : Int) (uri : String) (line : List Char)
    (parentName : String) : List (List Char) → Nat → List Symbol
  | [], _ => []
  | v :: rest, firstOffset =>
      let nameLoc := GetNameRange lineNumber line v
      { kind := .var, visibility := some "", type := "",
        name := String.mk v, args := "",
        nameLocation := ⟨uri, nameLoc⟩,
        symbolRange := ⟨⟨lineNumber, nameLoc.start.character - firstOffset⟩,
          ⟨lineNumber, nameLoc.stop.character⟩⟩,
        parentName := some parentName }
      :: variableSymbolsLoop lineNumber uri line parentName rest 0

/-- `GetVariableSymbol`.  The parent is resolved by the if-cascade
class, then method, then property — so the innermost open construct
wins. -/
def GetVariableSymbol (line : String) (lineNumber : Int) (uri : String)
    (st : ParserState) : Option (List Symbol) :=
  match variableMatch line with
  | none => none
  | some (g1, g2, g4) =>
    let varNames := GetVariableNamesFromList (g2 ++ g4)
    let parentName : String :=
      match st.openProperty with
      | some p => p.name
      | none =>
        match st.openMethod with
        | some m => m.name
        | none => (st.openClassName).getD ""
    some (variableSymbolsLoop lineNumber uri line.data parentName varNames
      g1.length)

/-- `GetConstantSymbol`: rejected outright while a method or a
property is open; `nameStartIndex` is again `line.indexOf(line) = 0`. -/
def GetConstantSymbol (line : String) (lineNumber : Int) (uri : String)
    (st : ParserState) : Option Symbol :=
  if st.openMethod.isSome || st.openProperty.isSome then none
  else
    match constantMatch line with
    | none => none
    | some (vis, nm) =>
      let name := jsTrim nm
      let intendention := GetNumberOfFrontSpaces line.data
      let nameStartIndex := jsIndexOf line.data line.data
      let range : LsRange := ⟨⟨lineNumber, (intendention : Int)⟩,
        ⟨lineNumber, (intendention : Int) + (jsTrim line.data).length⟩⟩
      let parentName : String :=
        match st.openProperty with
        | some p => p.name
        | none =>
          match st.openMethod with
          | some m => m.name
          | none => (st.openClassName).getD ""
      some
        { kind := .const,
          visibility := vis.map fun v => String.mk (jsTrim v),
          type := "", name := String.mk name, args := "",
          symbolRange := range,
          nameLocation := ⟨uri, ⟨⟨lineNumber, nameStartIndex⟩,
            ⟨lineNumber, nameStartIndex + name.length⟩⟩⟩,
          parentName := some parentName }

/-- `GetClassStart`: an unconditional overwrite of the open-class
variables. -/
def GetClassStart (line : String) (lineNumber : Int)
    (st : ParserState) : Bool × ParserState :=
  match classStartMatch line with
  | none => (false, st)
  | some nm =>
      (true,
        { st with
            openClassName := some (String.mk nm)
            openClassStart := ⟨lineNumber, 0⟩ })

/-- `GetClassSymbol`: a still-open method or property is only logged —
`openMethod` and `openProperty` are left untouched; the range end uses
`regexResult[0].length`, the full line length. -/
def GetClassSymbol (line : String) (lineNumber : Int) (uri : String)
    (st : ParserState) : Option Symbol × ParserState × List String :=
  match st.openClassName with
  | none => (none, st, [])
  | some c =>
    if classEndMatch line then
      let logM : List String :=
        match st.openMethod with
        | some m =>
            ["ERROR - line " ++ toString lineNumber ++ ": end " ++ m.type ++
              " expected!"]
        | none => []
      let logP : List String :=
        match st.openProperty with
        | some _ =>
            ["ERROR - line " ++ toString lineNumber ++
              ": end property expected!"]
        | none => []
      let range : LsRange := ⟨st.openClassStart,
        ⟨lineNumber, (line.data.length : Int)⟩⟩
      let symbol : Symbol :=
        { kind := .cls, visibility := some "", type := "",
          name := c, args := "",
          nameLocation := ⟨uri, ⟨st.openClassStart,
            ⟨st.openClassStart.line,
              st.openClassStart.character + (c.data.length : Int)⟩⟩⟩,
          symbolRange := range, parentName := some "" }
      (some symbol,
        { st with openClassName := none, openClassStart := ⟨-1, -1⟩ },
        logM ++ logP)
    else (none, st, [])

/-- `FindSymbol`: the recognizers are tried in the fixed order of the
source; a returned list is used only when it is non-empty (the
`newSyms != null && newSyms.length != 0` checks), otherwise the
statement falls through with any state mutations retained. -/
def FindSymbol (statement : String) (lineNumber : Int) (uri : String)
    (st : ParserState) : List Symbol × ParserState × List String :=
  match GetMethodStart statement lineNumber uri st with
  | (true, st1, logs1) => ([], st1, logs1)
  | (false, st1, logs1) =>
  match GetMethodSymbol statement lineNumber uri st1 with
  | (some (s2 :: ss2), st2, logs2) => (s2 :: ss2, st2, logs1 ++ logs2)
  | (_, st2, logs2) =>
  match GetPropertyStart statement lineNumber uri st2 with
  | (true, st3, logs3) => ([], st3, logs1 ++ logs2 ++ logs3)
  | (false, st3, logs3) =>
  match GetPropertySymbol statement lineNumber uri st3 with
  | (some (s4 :: ss4), st4, logs4) =>
      (s4 :: ss4, st4, logs1 ++ logs2 ++ logs3 ++ logs4)
  | (_, st4, logs4) =>
  match GetClassStart statement lineNumber st4 with
  | (true, st5) => ([], st5, logs1 ++ logs2 ++ logs3 ++ logs4)
  | (false, st5) =>
  match GetClassSymbol statement lineNumber uri st5 with
  | (some s6, st6, logs6) =>
      ([s6], st6, logs1 ++ logs2 ++ logs3 ++ logs4 ++ logs6)
  | (none, st6, logs6) =>
  match GetMemberSymbol statement lineNumber uri st6 with
  | some s7 => ([s7], st6, logs1 ++ logs2 ++ logs3 ++ logs4 ++ logs6)
  | none =>
  match GetVariableSymbol statement lineNumber uri st6 with
  | some (s8 :: ss8) =>
      (s8 :: ss8, st6, logs1 ++ logs2 ++ logs3 ++ logs4 ++ logs6)
  | _ =>
  match GetConstantSymbol statement lineNumber uri st6 with
  | some s9 => ([s9], st6, logs1 ++ logs2 ++ logs3 ++ logs4 ++ logs6)
  | none => ([], st6, logs1 ++ logs2 ++ logs3 ++ logs4 ++ logs6)

/-- One line of the `CollectSymbols` loop: strip the comment, mask the
string literals, split into statements and run `FindSymbol` on each. -/
def collectLine (line : String) (lineNumber : Int) (uri : String)
    (st : ParserState) : List Symbol × ParserState × List String :=
  let masked := maskChars (stripComment line.data)
  (SplitStatements masked).foldl
    (fun acc stmt =>
      let r := FindSymbol (String.mk stmt) lineNumber uri acc.2.1
      (acc.1 ++ r.1, r.2.1, acc.2.2 ++ r.2.2))
    ([], st, [])

/-- `CollectSymbols` over the document's physical lines (the TS code
obtains them as `document.getText().split(/\r?\n/g)`), starting from
line index `i`. -/
def collectFrom (uri : String) : List String → Nat → ParserState →
    List Symbol × ParserState × List String
  | [], _, st => ([], st, [])
  | line :: rest, i, st =>
      let r := collectLine line (i : Int) uri st
      let r2 := collectFrom uri rest (i + 1) r.2.1
      (r.1 ++ r2.1, r2.2.1, r.2.2 ++ r2.2.2)

/-- `CollectSymbols` (and the body of `RefreshDocumentsSymbols`, which
allocates a fresh list and runs it over the full text — but does not
reset the module-level open-construct variables). -/
def CollectSymbols (uri : String) (documentLines : List String)
    (st : ParserState) : List Symbol × ParserState × List String :=
  collectFrom uri documentLines 0 st

/-! ## Scope resolution

`VBSSymbolTree` is encoded as a forest: `cons data children rest`
carries one tree node (its symbol and child forest) and the remaining
sibling trees; the parentless root of the TS class is the top-level
forest itself. -/

/-- `PositionInRange`: containment strict at both boundaries. -/
def PositionInRange (range : LsRange) (position : Pos) : Bool :=
  if range.start.line > position.line then false
  else if range.stop.line < position.line then false
  else if range.start.line = position.line &&
      range.start.character ≥ position.character then false
  else if range.stop.line = position.line &&
      range.stop.character ≤ position.character then false
  else true

/-- The comparator of `GetVBSSymbolTree`: start line, then start
character. -/
def symbolLE (a b : Symbol) : Bool :=
  a.symbolRange.start.line < b.symbolRange.start.line ||
    (a.symbolRange.start.line = b.symbolRange.start.line &&
      a.symbolRange.start.character ≤ b.symbolRange.start.character)

/-- Stable insertion of `a` behind every already-placed element that
compares `≤ a`. -/
def insertSorted (a : Symbol) : List Symbol → List Symbol
  | [] => [a]
  | b :: rest => if symbolLE b a then b :: insertSorted a rest else a :: b :: rest

/-- The `symbols.sort(...)` call: `Array.prototype.sort` is stable
(ECMAScript 2019), modelled by stable insertion sort with the same
order. -/
def sortSymbols (symbols : List Symbol) : List Symbol :=
  symbols.foldl (fun acc a => insertSorted a acc) []

/-- `VBSSymbolTree`, flattened to a forest: `cons d cs rest` is a node
with symbol `d` and children `cs`, followed by its sibling trees
`rest`. -/
inductive VForest where
  | nil : VForest
  | cons (data : Symbol) (children : VForest) (rest : VForest) : VForest
deriving Repr, DecidableEq

/-- `InsertIntoTree`: the first sibling whose range contains the new
symbol's start receives it (recursively); when no sibling accepts it, a
new leaf is appended at the end of the sibling list (`children.push`). -/
def insertIntoForest (s : Symbol) : VForest → VForest
  | .nil => .cons s .nil .nil
  | .cons d cs rest =>
      if PositionInRange d.symbolRange s.symbolRange.start then
        .cons d (insertIntoForest s cs) rest
      else .cons d cs (insertIntoForest s rest)

/-- `GetVBSSymbolTree`: sort, then insert each symbol in order
(insertion at the root always succeeds since the root has no data). -/
def GetVBSSymbolTree (symbols : List Symbol) : VForest :=
  (sortSymbols symbols).foldl (fun f s => insertIntoForest s f) .nil

/-- `FindDirectParent`, returning the whole root-to-node descent path:
the first sibling containing the position is entered; a node none of
whose children contains the position ends the path (the TS method
returns `this` there). -/
def findDirectParentPath (position : Pos) : VForest → Option (List (Symbol × VForest))
  | .nil => none
  | .cons d cs rest =>
      if PositionInRange d.symbolRange position then
        some ((d, cs) :: ((findDirectParentPath position cs).getD []))
      else findDirectParentPath position rest

/-- The symbols of the top-level nodes of a forest (the
`children.map(st => st.data)` of one tree level). -/
def forestData : VForest → List Symbol
  | .nil => []
  | .cons d _ rest => d :: forestData rest

/-- `GetSymbolsOfScope`:
`symbolTree.FindDirectParent(position).GetAllParentsAndTheirDirectChildren()` —
the direct children of the root and of every node on the descent path,
in root-to-leaf order. -/
def GetSymbolsOfScope (symbols : List Symbol) (position : Pos) : List Symbol :=
  let f := GetVBSSymbolTree symbols
  let path := (findDirectParentPath position f).getD []
  forestData f ++ path.flatMap fun e => forestData e.2

/-! ## Specification-side notions used to state the claims -/

/-- Lexicographic "not after": position `a` is at or before `b`. -/
def posLE (a b : Pos) : Prop :=
  a.line < b.line ∨ (a.line = b.line ∧ a.character ≤ b.character)

instance (a b : Pos) : Decidable (posLE a b) := by
  unfold posLE; infer_instance

/-- The spec's range containment: the inner range starts no earlier
and ends no later than the outer one. -/
def rangeContains (outer inner : LsRange) : Prop :=
  posLE outer.start inner.start ∧ posLE inner.stop outer.stop

instance (outer inner : LsRange) : Decidable (rangeContains outer inner) := by
  unfold rangeContains; infer_instance

/-- A node, given by its symbol and child forest, occurs among the
top-level trees of a forest. -/
def MemNode (d : Symbol) (cs : VForest) : VForest → Prop
  | .nil => False
  | .cons d' cs' rest => (d = d' ∧ cs = cs') ∨ MemNode d cs rest

/-- The spec's "descend from the structure root to the innermost node
containing the position": each path entry is a top-level node of the
current forest whose range contains the position, and the path ends
when no node of the remaining forest contains it. -/
def IsDescent (position : Pos) : VForest → List (Symbol × VForest) → Prop
  | f, [] =>
      ∀ d cs, MemNode d cs f → PositionInRange d.symbolRange position = false
  | f, e :: rest =>
      MemNode e.1 e.2 f ∧ PositionInRange e.1.symbolRange position = true ∧
        IsDescent position e.2 rest

/-! ## Claim theorems -/

/-- Claim C10: range containment used by scope resolution is strict at
both boundaries — a position on the start line at or before the start
character, or on the end line at or after the end character, is
outside the range, while any position on a strictly interior line is
inside regardless of its column. -/
theorem c10_position_in_range_strict (range : LsRange) (position : Pos) :
    (position.line = range.start.line →
      position.character ≤ range.start.character →
      PositionInRange range position = false) ∧
    (position.line = range.stop.line →
      range.stop.character ≤ position.character →
      PositionInRange range position = false) ∧
    (range.start.line < position.line → position.line < range.stop.line →
      PositionInRange range position = true) := by
  unfold PositionInRange
  refine ⟨fun h1 h2 => ?_, fun h1 h2 => ?_, fun h1 h2 => ?_⟩ <;>
    split_ifs with g1 g2 g3 g4 <;> simp_all <;> omega

/-- Witness for C10 at the concrete range (0,4)–(2,9): the position at
the exact opening column, the position at the end of the closing
keyword, and an interior-line position with an extreme column. -/
theorem c10_witness :
    PositionInRange ⟨⟨0, 4⟩, ⟨2, 9⟩⟩ ⟨0, 4⟩ = false ∧
    PositionInRange ⟨⟨0, 4⟩, ⟨2, 9⟩⟩ ⟨2, 9⟩ = false ∧
    PositionInRange ⟨⟨0, 4⟩, ⟨2, 9⟩⟩ ⟨1, 999⟩ = true :=
  ⟨(c10_position_in_range_strict ⟨⟨0, 4⟩, ⟨2, 9⟩⟩ ⟨0, 4⟩).1 rfl (by decide),
   (c10_position_in_range_strict ⟨⟨0, 4⟩, ⟨2, 9⟩⟩ ⟨2, 9⟩).2.1 rfl (by decide),
   (c10_position_in_range_strict ⟨⟨0, 4⟩, ⟨2, 9⟩⟩ ⟨1, 999⟩).2.2 (by decide)
     (by decide)⟩

/-- Claim C8 (code bug): on the space-indented field declaration
`  Private x` the emitted symbol's `declaredRange` starts at character
2 but its `nameRange` starts at character 0 — `nameStartIndex` is
computed as `line.indexOf(line)`, which is always 0 — so the invariant
"`declaredRange` always contains `nameRange`" fails on the code. -/
theorem c8_name_range_outside_declared_range :
    ((CollectSymbols "file" ["  Private x"] initState).1.map
        fun s => (s.kind, s.name, s.symbolRange, s.nameLocation.range)) =
      [(.member, "x", ⟨⟨0, 2⟩, ⟨0, 11⟩⟩, ⟨⟨0, 0⟩, ⟨0, 1⟩⟩)] ∧
    ¬ rangeContains ⟨⟨0, 2⟩, ⟨0, 11⟩⟩ ⟨⟨0, 0⟩, ⟨0, 1⟩⟩ := by
  exact ⟨by decide, by decide⟩

/-- Claim C7 (corrected): there is no line-continuation joining — on
`Dim x, _` followed by `    y` the parse emits two Variable symbols
named `x` and `_` on the first line (`x`'s declared range widened left
over the `Dim` keyword) and nothing at all for the second line. -/
theorem c7_no_continuation_join :
    ((CollectSymbols "file" ["Dim x, _", "    y"] initState).1.map
        fun s => (s.kind, s.name, s.symbolRange, s.parentName)) =
      [(.var, "x", ⟨⟨0, 0⟩, ⟨0, 5⟩⟩, some ""),
       (.var, "_", ⟨⟨0, 7⟩, ⟨0, 8⟩⟩, some "")] := by
  decide

/-- Counterexample to claim C7 as stated: the parse of
`Dim x, _` / `    y` yields no symbol named `y` (and none on line 1),
contradicting "two Variable symbols named `x` and `y`". -/
theorem c7_counterexample :
    ((CollectSymbols "file" ["Dim x, _", "    y"] initState).1.map
        fun s => (s.name, s.symbolRange.start.line)) =
      [("x", 0), ("_", 0)] := by
  decide

/-- Claim C6 (corrected): `Function Add(a, b)` / `End Function` yields
the two parameter Variable symbols `a`, `b` and one Method symbol
rendered `Add (a, b)` — but the parameter symbols keep the `VBSSymbol`
default `parentName` of `""` (the empty string), not `Add`, because
`GetParameterSymbols` never assigns `parentName`; the method's own
`parentName` is the open class name, `null` here. -/
theorem c6_parameters_not_parented :
    ((CollectSymbols "file" ["Function Add(a, b)", "End Function"]
        initState).1.map
      fun s => (s.kind, s.name, GetLsName s, s.parentName)) =
      [(.var, "a", "a", some ""), (.var, "b", "b", some ""),
       (.method, "Add", "Add (a, b)", none)] := by
  decide

/-- Counterexample to claim C6 as stated: the parameter symbols of
`Function Add(a, b)` carry `parentName` `""`, not `Add`. -/
theorem c6_counterexample :
    ((CollectSymbols "file" ["Function Add(a, b)", "End Function"]
        initState).1.map fun s => (s.name, s.parentName)) =
      [("a", some ""), ("b", some ""), ("Add", none)] ∧
    some "" ≠ some "Add" := by
  exact ⟨by decide, by decide⟩

/-- Claim C4 (corrected): `CollectSymbols` is a deterministic function
of the document lines and the module-level open-construct state, so
reparsing identical text yields an identical collection exactly when
the first parse returns the open-construct variables to their initial
values; the state is not reset between parses, so a document leaving a
construct dangling makes the second parse differ. -/
theorem c4_idempotent_when_state_clean (uri : String) (lines : List String)
    (h : (CollectSymbols uri lines initState).2.1 = initState) :
    (CollectSymbols uri lines
        ((CollectSymbols uri lines initState).2.1)).1 =
      (CollectSymbols uri lines initState).1 := by
  rw [h]

/-- Witness for C4 on a well-formed document: `function f()` /
`end function` closes everything, so the reparse is identical. -/
theorem c4_witness :
    (CollectSymbols "file" ["function f()", "end function"]
        ((CollectSymbols "file" ["function f()", "end function"]
          initState).2.1)).1 =
      (CollectSymbols "file" ["function f()", "end function"] initState).1 :=
  c4_idempotent_when_state_clean "file" ["function f()", "end function"]
    (by decide)

/-- Counterexample to claim C4 as stated: on `end function` /
`function f()` the first parse emits no symbol but leaves `openMethod`
set; the second parse of the identical text then closes that leftover
method on line 0 and emits a Method symbol — the two collections
differ, so the second parse does depend on state left by the first. -/
theorem c4_counterexample :
    (CollectSymbols "file" ["end function", "function f()"] initState).1 =
      [] ∧
    ((CollectSymbols "file" ["end function", "function f()"]
        ((CollectSymbols "file" ["end function", "function f()"]
          initState).2.1)).1.map fun s => (s.kind, s.name)) =
      [(.method, "f")] := by
  exact ⟨by decide, by decide⟩

theorem getMethodStart_of_none {line : String} (ln : Int) (uri : String)
    (st : ParserState) (h : methodStartMatch line = none) :
    GetMethodStart line ln uri st = (false, st, []) := by
  unfold GetMethodStart; rw [h]

/-- Claim C5 (corrected): each opener guards only its own slot, so at
most one method and at most one property are open at any instant and a
second opener of the same kind is rejected without touching the state
(only reported) — but the two slots are not mutually exclusive: a
property opener encountered while a method is open (with no open
property) is consumed and opens the property, leaving both
simultaneously open. -/
theorem c5_open_slots (lineP lineM : String) (ln : Int) (uri : String)
    (st : ParserState) (m : OpenMethod) (hm : st.openMethod = some m) :
    (st.openProperty = none → (propertyStartMatch lineP).isSome = true →
      (GetPropertyStart lineP ln uri st).1 = true ∧
      (GetPropertyStart lineP ln uri st).2.1.openProperty.isSome = true ∧
      (GetPropertyStart lineP ln uri st).2.1.openMethod = some m) ∧
    ((methodStartMatch lineM).isSome = true →
      GetMethodStart lineM ln uri st =
        (false, st, ["ERROR - line " ++ toString ln ++
          ": end function or end sub expected!"])) := by
  constructor
  · intro hp hsome
    rcases hcaps : propertyStartMatch lineP with _ | caps
    · rw [hcaps] at hsome; simp at hsome
    · unfold GetPropertyStart
      rw [hcaps, hp]
      exact ⟨rfl, rfl, hm⟩
  · intro hsome
    rcases hcaps : methodStartMatch lineM with _ | caps
    · rw [hcaps] at hsome; simp at hsome
    · unfold GetMethodStart
      rw [hcaps, hm]

/-- Witness for C5: with `function f()` already open, the opener
`property get p` is consumed and opens the property while the method
stays open, and a second `function g()` opener is rejected with the
state unchanged. -/
theorem c5_witness :
    ((GetPropertyStart "property get p" 1 "file"
        (CollectSymbols "file" ["function f()"] initState).2.1).1 = true ∧
     (GetPropertyStart "property get p" 1 "file"
        (CollectSymbols "file" ["function f()"]
          initState).2.1).2.1.openProperty.isSome = true ∧
     (GetPropertyStart "property get p" 1 "file"
        (CollectSymbols "file" ["function f()"]
          initState).2.1).2.1.openMethod.isSome = true) ∧
    (GetMethodStart "function g()" 1 "file"
        (CollectSymbols "file" ["function f()"] initState).2.1).2.1 =
      (CollectSymbols "file" ["function f()"] initState).2.1 := by
  have h := c5_open_slots "property get p" "function g()" 1 "file"
    (CollectSymbols "file" ["function f()"] initState).2.1
    ((CollectSymbols "file" ["function f()"] initState).2.1.openMethod.get
      (by decide)) (by decide)
  obtain ⟨h1, h2, h3⟩ := h.1 (by decide) (by decide)
  refine ⟨⟨h1, h2, ?_⟩, ?_⟩
  · rw [h3]; rfl
  · rw [h.2 (by decide)]

/-- Counterexample to claim C5 as stated: after
`function f()` / `property get p` both `openMethod` and `openProperty`
are set — the property opener was consumed as an opener although a
method was open, so the two open states are not mutually exclusive. -/
theorem c5_counterexample :
    ((CollectSymbols "file" ["function f()", "property get p"]
        initState).2.1.openMethod.isSome = true) ∧
    ((CollectSymbols "file" ["function f()", "property get p"]
        initState).2.1.openProperty.isSome = true) := by
  exact ⟨by decide, by decide⟩

/-- Claim C3 (corrected): an `end class` reached while a method is
still open reports the mismatch and closes the class — the Class
symbol is emitted with the recorded name — but the still-open method
is not discarded: `openMethod` survives unchanged, so a later
`end function` in the same document still emits its Method symbol. -/
theorem c3_class_close_retains_open_method (line : String) (ln : Int)
    (uri : String) (st : ParserState) (c : String) (m : OpenMethod)
    (hc : st.openClassName = some c) (hm : st.openMethod = some m)
    (hend : classEndMatch line = true) :
    ((GetClassSymbol line ln uri st).1.map Symbol.name = some c) ∧
    ((GetClassSymbol line ln uri st).1.map Symbol.kind = some .cls) ∧
    ((GetClassSymbol line ln uri st).2.1.openClassName = none) ∧
    ((GetClassSymbol line ln uri st).2.1.openMethod = some m) ∧
    ((GetClassSymbol line ln uri st).2.2 ≠ []) := by
  unfold GetClassSymbol
  rw [hc, hend, hm]
  cases hpp : st.openProperty <;> simp [hm]

/-- Witness for C3 at a concrete state: a class `c` and a method open
since line 1, meeting `end class` on line 2. -/
theorem c3_witness :
    (let st := (CollectSymbols "file" ["class c", "function f()"]
        initState).2.1
     ((GetClassSymbol "end class" 2 "file" st).1.map Symbol.name = some "c") ∧
     ((GetClassSymbol "end class" 2 "file" st).2.1.openMethod.isSome = true) ∧
     ((GetClassSymbol "end class" 2 "file" st).2.2 ≠ [])) := by
  have h := c3_class_close_retains_open_method "end class" 2 "file"
    (CollectSymbols "file" ["class c", "function f()"] initState).2.1 "c"
    ((CollectSymbols "file" ["class c", "function f()"]
      initState).2.1.openMethod.get (by decide))
    (by decide) (by decide) (by decide)
  exact ⟨h.1, by rw [h.2.2.2.1]; rfl, h.2.2.2.2⟩

/-- Counterexample to claim C3 as stated: in
`class c` / `function f()` / `end class` / `end function` the final
`end function` does emit a Method symbol for the method that was still
open when the class closed — it is not discarded. -/
theorem c3_counterexample :
    ((CollectSymbols "file"
        ["class c", "function f()", "end class", "end function"]
        initState).1.map fun s => (s.kind, s.name)) =
      [(.cls, "c"), (.method, "f")] := by
  decide

/-- Claim C2: a close statement whose keyword kind differs from the
open method's kind never aborts parsing — `FindSymbol` returns
normally with the mismatch reported in the log, the method is closed
(`openMethod` cleared), and the emitted Method symbol carries the
`type` recorded when the method was opened, not the close keyword. -/
theorem c2_mismatched_end_uses_open_kind (line : String) (lineNumber : Int)
    (uri : String) (st : ParserState) (m : OpenMethod) (ty : List Char)
    (hstart : methodStartMatch line = none)
    (hend : methodEndMatch line = some ty)
    (hopen : st.openMethod = some m)
    (hne : ¬ String.mk ty = m.type) :
    FindSymbol line lineNumber uri st =
      (GetParameterSymbols m.args m.argsIndex m.startPosition.line uri ++
        [{ kind := .method, visibility := m.visibility, type := m.type,
           name := m.name, args := m.args, nameLocation := m.nameLocation,
           parentName := st.openClassName,
           symbolRange := ⟨m.startPosition,
             ⟨lineNumber, (GetNumberOfFrontSpaces line.data : Int) +
               ((jsTrim line.data).length : Int)⟩⟩ }],
       { st with openMethod := none },
       ["ERROR - line " ++ toString lineNumber ++ ": end " ++ m.type ++
         " expected!"]) := by
  have h2 : GetMethodSymbol line lineNumber uri st =
      (some (GetParameterSymbols m.args m.argsIndex m.startPosition.line uri ++
        [{ kind := .method, visibility := m.visibility, type := m.type,
           name := m.name, args := m.args, nameLocation := m.nameLocation,
           parentName := st.openClassName,
           symbolRange := ⟨m.startPosition,
             ⟨lineNumber, (GetNumberOfFrontSpaces line.data : Int) +
               ((jsTrim line.data).length : Int)⟩⟩ }]),
       { st with openMethod := none },
       ["ERROR - line " ++ toString lineNumber ++ ": end " ++ m.type ++
         " expected!"]) := by
    unfold GetMethodSymbol
    rw [hend, hopen]
    simp [hne]
  rcases hp : GetParameterSymbols m.args m.argsIndex m.startPosition.line uri
    with _ | ⟨p, ps⟩ <;>
    rw [hp] at h2 <;>
    simp only [FindSymbol, getMethodStart_of_none lineNumber uri st hstart,
      h2, hp] <;>
    simp

/-- Witness for C2: `End Sub` closing a method opened as `Function f`
— the method still closes and its symbol carries kind `Function`. -/
theorem c2_witness :
    FindSymbol "End Sub" 1 "file"
        (CollectSymbols "file" ["Function f()"] initState).2.1 =
      ([{ kind := .method, visibility := none, type := "Function",
          name := "f", args := "",
          nameLocation := ⟨"file", ⟨⟨0, 8⟩, ⟨0, 9⟩⟩⟩,
          parentName := none,
          symbolRange := ⟨⟨0, 0⟩, ⟨1, 7⟩⟩ }],
       initState,
       ["ERROR - line 1: end Function expected!"]) := by
  have h := c2_mismatched_end_uses_open_kind "End Sub" 1 "file"
    (CollectSymbols "file" ["Function f()"] initState).2.1
    ((CollectSymbols "file" ["Function f()"] initState).2.1.openMethod.get
      (by decide))
    "Sub".data rfl (by decide) (by decide) (by decide)
  rw [h]
  decide

theorem indexOfFrom_single_of_not_mem {l : List Char} {p : Char}
    (h : ∀ c ∈ l, c ≠ p) (i : Nat) : indexOfFrom l [p] i = -1 := by
  induction l generalizing i with
  | nil => simp [indexOfFrom]
  | cons c rest ih =>
    unfold indexOfFrom
    have hpre : ¬ [p].isPrefixOf (c :: rest) = true := by
      simp only [List.isPrefixOf, Bool.and_eq_true, beq_iff_eq]
      intro hx
      exact h c (by simp) (by simpa [List.isPrefixOf] using hx.1.symm)
    simp only [hpre, if_false]
    exact ih (fun c hc => h c (List.mem_cons_of_mem _ hc)) (i + 1)

theorem stripComment_of_no_marker {l : List Char}
    (h : ∀ c ∈ l, c ≠ commentChar) : stripComment l = l := by
  unfold stripComment jsIndexOf
  rw [indexOfFrom_single_of_not_mem h 0]
  simp

theorem matchLiteralTail_closes {w v : List Char}
    (hw : ∀ c ∈ w, c ≠ quoteChar) (hv : ∀ c ∈ v, c ≠ quoteChar) :
    matchLiteralTail (w ++ quoteChar :: v) = some (w.length + 1) := by
  induction w with
  | nil =>
    cases v with
    | nil => simp [matchLiteralTail]
    | cons c2 r2 =>
      have : c2 ≠ quoteChar := hv c2 (by simp)
      simp [matchLiteralTail, this]
  | cons c w' ih =>
    have hc : c ≠ quoteChar := hw c (by simp)
    have ih' := ih (fun x hx => hw x (List.mem_cons_of_mem _ hx))
    rw [List.cons_append]
    unfold matchLiteralTail
    simp [hc, ih']

theorem maskCharsAux_copy_front {u : List Char}
    (hu : ∀ c ∈ u, c ≠ quoteChar) (k : Nat) (rest : List Char) :
    maskCharsAux (u.length + k) (u ++ rest) = u ++ maskCharsAux k rest := by
  induction u with
  | nil => simp
  | cons c u' ih =>
    have hc : c ≠ quoteChar := hu c (by simp)
    have harith : (c :: u').length + k = (u'.length + k) + 1 := by
      simp; omega
    rw [harith, List.cons_append]
    simp only [maskCharsAux, hc, if_false]
    rw [ih (fun x hx => hu x (List.mem_cons_of_mem _ hx))]
    simp

theorem maskCharsAux_copy_all {v : List Char}
    (hv : ∀ c ∈ v, c ≠ quoteChar) (k : Nat) :
    maskCharsAux (v.length + k) v = v := by
  have h := maskCharsAux_copy_front hv k []
  simpa [maskCharsAux] using h

theorem maskChars_single_literal (u w v : List Char)
    (hu : ∀ c ∈ u, c ≠ quoteChar) (hw : ∀ c ∈ w, c ≠ quoteChar)
    (hv : ∀ c ∈ v, c ≠ quoteChar) :
    maskChars (u ++ quoteChar :: (w ++ quoteChar :: v)) =
      u ++ (List.replicate (w.length + 2) ' ' ++ v) := by
  unfold maskChars
  have hlen : (u ++ quoteChar :: (w ++ quoteChar :: v)).length =
      u.length + (w.length + v.length + 2) := by
    simp [List.length_append]; omega
  rw [hlen, maskCharsAux_copy_front hu]
  congr 1
  have harith : w.length + v.length + 2 = (w.length + v.length + 1) + 1 := by
    omega
  rw [harith]
  simp only [maskCharsAux, if_pos rfl]
  rw [matchLiteralTail_closes hw hv]
  have hdrop : (w ++ quoteChar :: v).drop (w.length + 1) = v := by
    have : w ++ quoteChar :: v = (w ++ [quoteChar]) ++ v := by simp
    rw [this]
    have hlen2 : (w ++ [quoteChar]).length = w.length + 1 := by simp
    rw [← hlen2, List.drop_left]
  simp only [hdrop]
  have harith2 : w.length + v.length + 1 = v.length + (w.length + 1) := by omega
  rw [harith2, maskCharsAux_copy_all hv]
  simp

theorem splitChar_ne_nil (sep : Char) (l : List Char) : splitChar sep l ≠ [] := by
  induction l with
  | nil => simp [splitChar]
  | cons c rest ih =>
    unfold splitChar
    by_cases hc : c = sep
    · simp [hc]
    · simp only [hc, if_false]
      cases hs : splitChar sep rest with
      | nil => exact absurd hs ih
      | cons s ss => simp

theorem splitChar_length (sep : Char) (l : List Char) :
    (splitChar sep l).length = l.count sep + 1 := by
  induction l with
  | nil => simp [splitChar]
  | cons c rest ih =>
    unfold splitChar
    by_cases hc : c = sep
    · simp [hc, List.count_cons, ih]
    · simp only [hc, if_false]
      cases hs : splitChar sep rest with
      | nil => exact absurd hs (splitChar_ne_nil sep rest)
      | cons s ss =>
        have : (s :: ss).length = rest.count sep + 1 := by rw [← hs]; exact ih
        simp only [List.length_cons] at this ⊢
        simp [List.count_cons, hc, this]

theorem padStatements_length (off : Nat) (l : List (List Char)) :
    (padStatements off l).length = l.length := by
  induction l generalizing off with
  | nil => rfl
  | cons s rest ih => simp [padStatements, ih]

/-- Claim C1 (corrected): masking protects the colons of a string
literal only on lines without the comment marker.  On every line of
the form `u"w"v` in which `u`, `w`, `v` contain neither a quote nor an
apostrophe, the literal `"w"` is masked to blanks and the line splits
into exactly `1 + (colons of u) + (colons of v)` statements — the
colons inside the literal never split.  The restriction is forced:
comment stripping runs before masking and truncates at the first
apostrophe even inside a string literal (see the counterexample). -/
theorem c1_masked_colons_never_split (u w v : List Char)
    (hu : ∀ c ∈ u, c ≠ quoteChar ∧ c ≠ commentChar)
    (hw : ∀ c ∈ w, c ≠ quoteChar ∧ c ≠ commentChar)
    (hv : ∀ c ∈ v, c ≠ quoteChar ∧ c ≠ commentChar) :
    numStatements (String.mk (u ++ quoteChar :: (w ++ quoteChar :: v))) =
      1 + u.count ':' + v.count ':' := by
  unfold numStatements SplitStatements
  have hdata : (String.mk (u ++ quoteChar :: (w ++ quoteChar :: v))).data =
      u ++ quoteChar :: (w ++ quoteChar :: v) := rfl
  rw [hdata]
  have hnc : ∀ c ∈ u ++ quoteChar :: (w ++ quoteChar :: v), c ≠ commentChar := by
    intro c hc
    rcases List.mem_append.1 hc with h | h
    · exact (hu c h).2
    · rcases List.mem_cons.1 h with rfl | h
      · decide
      · rcases List.mem_append.1 h with h | h
        · exact (hw c h).2
        · rcases List.mem_cons.1 h with rfl | h
          · decide
          · exact (hv c h).2
  rw [stripComment_of_no_marker hnc]
  rw [maskChars_single_literal u w v (fun c hc => (hu c hc).1)
    (fun c hc => (hw c hc).1) (fun c hc => (hv c hc).1)]
  rw [padStatements_length, splitChar_length]
  have hcount : (u ++ (List.replicate (w.length + 2) ' ' ++ v)).count ':' =
      u.count ':' + v.count ':' := by
    simp [List.count_append, List.count_replicate]
  rw [hcount]
  omega

/-- Witness for C1 (amended): the spec's own scenario `x = "a:b"` is a
single statement. -/
theorem c1_witness :
    numStatements
      (String.mk ("x = ".data ++ quoteChar :: ("a:b".data ++ quoteChar :: [])))
      = 1 := by
  rw [c1_masked_colons_never_split "x = ".data "a:b".data []
    (by decide) (by decide) (by decide)]
  decide

/-- The line `x = "a:b'c"`, assembled from its pieces so that the
quote and apostrophe characters appear only through their named
constants. -/
def c1Line : String :=
  String.mk ("x = ".data ++ quoteChar ::
    ("a:b".data ++ commentChar :: 'c' :: [quoteChar]))

/-- Counterexample to claim C1 as stated: on `x = "a:b'c"` the
apostrophe inside the string literal is taken as a comment marker
before masking, the truncated literal `"a:b` no longer matches the
masking regex, and the line splits into two statements — the colon
inside the string literal does act as a statement separator, so the
guarantee does not extend to literals containing an apostrophe. -/
theorem c1_counterexample : numStatements c1Line = 2 := by decide

theorem memNode_data {d : Symbol} {cs : VForest} :
    ∀ f, MemNode d cs f → d ∈ forestData f := by
  intro f
  induction f with
  | nil => intro h; exact h.elim
  | cons d' cs' rest ihc ihr =>
    intro h
    rcases h with ⟨rfl, rfl⟩ | h
    · simp [forestData]
    · simp only [forestData, List.mem_cons]
      exact Or.inr (ihr h)

theorem isDescent_lift {position : Pos} {d : Symbol} {cs rest : VForest}
    (hd : ¬ PositionInRange d.symbolRange position = true) :
    ∀ p, IsDescent position rest p → IsDescent position (.cons d cs rest) p := by
  intro p hp
  cases p with
  | nil =>
    intro d' cs' hmem
    rcases hmem with ⟨rfl, rfl⟩ | hmem
    · exact Bool.not_eq_true _ ▸ (by simpa using hd)
    · exact hp d' cs' hmem
  | cons e p' =>
    exact ⟨Or.inr hp.1, hp.2.1, hp.2.2⟩

theorem findPath_isDescent (position : Pos) :
    ∀ f, IsDescent position f ((findDirectParentPath position f).getD []) := by
  intro f
  induction f with
  | nil =>
    intro d cs h
    exact h.elim
  | cons d cs rest ihc ihr =>
    unfold findDirectParentPath
    by_cases hd : PositionInRange d.symbolRange position = true
    · simp only [hd, if_true, Option.getD_some]
      exact ⟨Or.inl ⟨rfl, rfl⟩, hd, ihc⟩
    · simp only [hd, if_false]
      exact isDescent_lift hd _ ihr

theorem descent_getLast_mem (position : Pos) :
    ∀ (p : List (Symbol × VForest)) (f : VForest), IsDescent position f p →
      ∀ e, p.getLast? = some e →
        e.1 ∈ forestData f ∨ ∃ e' ∈ p, e.1 ∈ forestData e'.2 := by
  intro p
  induction p with
  | nil => intro f _ e h; simp at h
  | cons a p' ih =>
    intro f hd e hlast
    obtain ⟨hmem, _, hrest⟩ := hd
    cases p' with
    | nil =>
      simp only [List.getLast?_singleton, Option.some.injEq] at hlast
      subst hlast
      exact Or.inl (memNode_data f hmem)
    | cons b p'' =>
      rw [List.getLast?_cons_cons] at hlast
      rcases ih a.2 hrest e hlast with h | ⟨e', he', hmem'⟩
      · exact Or.inr ⟨a, by simp, h⟩
      · exact Or.inr ⟨e', by simp [he'], hmem'⟩

/-- Claim C9: the visibility query returns exactly the symbols of a
root-to-innermost descent — the direct children of the root and of
every node on the path to the innermost node containing the position
(the innermost node's own symbol being a direct child of its parent
level), and nothing else: a symbol nested deeper inside a sibling that
does not lie on the path is excluded, since only the `forestData`
(direct children) of path nodes contribute. -/
theorem c9_scope_query_exact (symbols : List Symbol) (position : Pos) :
    ∃ path : List (Symbol × VForest),
      IsDescent position (GetVBSSymbolTree symbols) path ∧
      (∀ s, s ∈ GetSymbolsOfScope symbols position ↔
        (s ∈ forestData (GetVBSSymbolTree symbols) ∨
          ∃ e ∈ path, s ∈ forestData e.2)) ∧
      (∀ e, path.getLast? = some e →
        e.1 ∈ GetSymbolsOfScope symbols position) := by
  refine ⟨(findDirectParentPath position (GetVBSSymbolTree symbols)).getD [],
    findPath_isDescent position (GetVBSSymbolTree symbols), ?_, ?_⟩
  · intro s
    unfold GetSymbolsOfScope
    simp only [List.mem_append, List.mem_flatMap]
  · intro e hlast
    have hdesc := findPath_isDescent position (GetVBSSymbolTree symbols)
    rcases descent_getLast_mem position _ _ hdesc e hlast with h | ⟨e', he', hm⟩
    · unfold GetSymbolsOfScope
      simp only [List.mem_append]
      exact Or.inl h
    · unfold GetSymbolsOfScope
      simp only [List.mem_append, List.mem_flatMap]
      exact Or.inr ⟨e', he', hm⟩

/-- Witness for C9 on the document
`class c` / `  function f()` / `  end function` / `end class` at a
position inside the method: the class symbol (a direct child of the
root) is visible there. -/
theorem c9_witness :
    ({ kind := .cls, visibility := some "", name := "c", type := "",
       args := "", symbolRange := ⟨⟨0, 0⟩, ⟨3, 9⟩⟩,
       nameLocation := ⟨"file", ⟨⟨0, 0⟩, ⟨0, 1⟩⟩⟩,
       parentName := some "" } : Symbol) ∈
      GetSymbolsOfScope
        (CollectSymbols "file"
          ["class c", "  function f()", "  end function", "end class"]
          initState).1 ⟨1, 30⟩ := by
  obtain ⟨path, _, hiff, _⟩ := c9_scope_query_exact
    (CollectSymbols "file"
      ["class c", "  function f()", "  end function", "end class"]
      initState).1 ⟨1, 30⟩
  exact (hiff _).mpr (Or.inl (by decide))

end VBS
